import Mathlib

/-!
Shallow embedding of the deep-search report pipeline
(`src/app/api/deep-search/route.ts`) and of the paginated PDF layout engine
(the generate-pdf route, `src/unnamed/part_001`), together with proofs about
them.  Machine arithmetic in the layout engine is over millimetre
coordinates; we embed them as rationals.  External collaborators (the HTTP
search call, jsPDF text measurement and wrapping, the clock) are modelled as
explicit oracle parameters.
-/

namespace DeepSearchPDF

/-! ### String utilities

`leadsWith pat s` decides whether `s` starts with `pat`; `hasSub s pat`
decides whether `pat` occurs contiguously in `s`.  `containsSub` is the
embedding of JavaScript `String.prototype.includes`. -/

def leadsWith : List Char → List Char → Bool
  | [], _ => true
  | _ :: _, [] => false
  | a :: as, b :: bs => a == b && leadsWith as bs

def hasSub : List Char → List Char → Bool
  | [], k => k.isEmpty
  | c :: rest, k => leadsWith k (c :: rest) || hasSub rest k

def containsSub (s pat : String) : Bool :=
  hasSub s.data pat.data

/-- The space character, used to split rendered queries into topic and
query phrase. -/
def sepChar : Char := Char.ofNat 32

/-- Embedding of `q.split(' ')[0]` (JavaScript): the first space-separated
word of a string, i.e. its characters up to the first space. -/
def firstWordOf (s : String) : String :=
  String.mk (s.data.takeWhile (fun c => !(c == sepChar)))

/-! ### Content synthesizer (`synthesizeContent` in route.ts, lines 39-74)

The eight templates are transcribed verbatim from the source, with the
JavaScript interpolation `${topic}` embedded as string concatenation. -/

def overviewTemplate (topic : String) : String :=
  "This section provides a comprehensive overview of " ++ topic ++
  ". The topic encompasses various important aspects including fundamental concepts, key principles, and current applications. Understanding these foundational elements is crucial for gaining a complete perspective on "
  ++ topic ++ "."

def historyTemplate (topic : String) : String :=
  "The historical development of " ++ topic ++
  " has been marked by significant milestones and evolutionary changes. From its early conceptualization to modern implementations, "
  ++ topic ++
  " has undergone substantial transformation. Key historical events and pioneering contributions have shaped its current state and continue to influence future developments."

def currentTrendsTemplate (topic : String) : String :=
  "Current trends in " ++ topic ++
  " reflect the dynamic nature of this field. Recent developments show increasing focus on innovation, efficiency, and practical applications. Modern approaches incorporate advanced methodologies and technologies, demonstrating the field\x27s continuous evolution and adaptation to contemporary challenges."

def applicationsTemplate (topic : String) : String :=
  "The practical applications of " ++ topic ++
  " span across multiple domains and industries. Real-world implementations demonstrate its versatility and impact. From theoretical frameworks to concrete use cases, "
  ++ topic ++
  " provides valuable solutions to various challenges, showing measurable benefits and outcomes in different contexts."

def challengesTemplate (topic : String) : String :=
  "Like any significant field, " ++ topic ++
  " faces several challenges and considerations. These include technical limitations, resource constraints, and implementation barriers. Understanding these challenges is essential for developing effective strategies and solutions. Ongoing research and development efforts aim to address these obstacles systematically."

def futureTemplate (topic : String) : String :=
  "The future outlook for " ++ topic ++
  " appears promising with numerous opportunities for advancement. Emerging technologies and innovative approaches suggest potential breakthroughs. Anticipated developments include enhanced capabilities, broader applications, and more sophisticated methodologies that could transform the landscape of "
  ++ topic ++ "."

def bestPracticesTemplate (topic : String) : String :=
  "Best practices in " ++ topic ++
  " have been established through extensive research and practical experience. These guidelines help ensure optimal outcomes and efficient implementation. Following proven methodologies, maintaining quality standards, and adhering to industry recommendations are crucial for success in this field."

def caseStudiesTemplate (topic : String) : String :=
  "Examining real-world case studies of " ++ topic ++
  " provides valuable insights into practical implementation. Successful examples demonstrate effective strategies and approaches. These cases illustrate both achievements and lessons learned, offering practical guidance for similar initiatives and highlighting key success factors."

/-- `Object.keys(perspectives)` — the semantic categories in the insertion
order of the `perspectives` object literal. -/
def perspectiveKeys : List String :=
  ["overview", "history", "current_trends", "applications",
   "challenges", "future", "best_practices", "case_studies"]

/-- `perspectives[key]`: the template object lookup.  Every key produced by
the source is one of the eight above. -/
def templateFor (topic key : String) : String :=
  if key == "overview" then overviewTemplate topic
  else if key == "history" then historyTemplate topic
  else if key == "current_trends" then currentTrendsTemplate topic
  else if key == "applications" then applicationsTemplate topic
  else if key == "challenges" then challengesTemplate topic
  else if key == "future" then futureTemplate topic
  else if key == "best_practices" then bestPracticesTemplate topic
  else if key == "case_studies" then caseStudiesTemplate topic
  else overviewTemplate topic

/-- The `queries` array inside `synthesizeContent`. -/
def synthQueries : List String :=
  ["overview and introduction", "historical development", "current trends",
   "practical applications", "challenges and limitations", "future prospects",
   "best practices", "case studies and examples"]

/-- The first words of `synthQueries` — the effective matching keywords of
`queries.findIndex(q => query.includes(q.split(' ')[0]))`. -/
def synthKeywords : List String :=
  synthQueries.map firstWordOf

/-- `synthesizeContent(topic, query)` (route.ts lines 39-74):
`findIndex` over the query-phrase list using first-word containment, then a
positional key lookup with `|| 'overview'` as fallback (a `-1` index reads
`undefined` in JavaScript, so the fallback also covers the no-match case). -/
def synthesizeContent (topic query : String) : String :=
  let idx? := synthQueries.findIdx? (fun q => containsSub query (firstWordOf q))
  let key :=
    match idx? with
    | some i => perspectiveKeys.getD i "overview"
    | none => "overview"
  templateFor topic key

/-! ### Stage catalog (`searchQueries` in the POST handler, lines 84-93) -/

structure SearchQuery where
  query : String
  perspective : String
deriving DecidableEq

def searchQueries (topic : String) : List SearchQuery :=
  [⟨topic ++ " overview and introduction", "Overview & Fundamentals"⟩,
   ⟨topic ++ " historical development", "Historical Context"⟩,
   ⟨topic ++ " current trends and innovations", "Current Trends"⟩,
   ⟨topic ++ " practical applications", "Practical Applications"⟩,
   ⟨topic ++ " challenges and limitations", "Challenges & Considerations"⟩,
   ⟨topic ++ " future prospects", "Future Outlook"⟩,
   ⟨topic ++ " best practices", "Best Practices"⟩,
   ⟨topic ++ " case studies and examples", "Case Studies"⟩]

/-- The rendered query of catalog stage `i`. -/
def stageQuery (topic : String) (i : Nat) : String :=
  ((searchQueries topic).getD i ⟨"", ""⟩).query

/-- The perspective label of catalog stage `i`. -/
def stagePerspective (topic : String) (i : Nat) : String :=
  ((searchQueries topic).getD i ⟨"", ""⟩).perspective

/-- The template of the semantic category that catalog stage `i` belongs to
(catalog order and category order coincide: overview, history,
current_trends, applications, challenges, future, best_practices,
case_studies). -/
def stageCategoryTemplate (i : Nat) (topic : String) : String :=
  templateFor topic (perspectiveKeys.getD i "overview")

/-! ### External search call (`fetchSearchResults`, route.ts lines 8-37)

The external world is an oracle: the call can throw (network failure), come
back non-OK, or come back OK with some lists of regex title/snippet matches.
The body of the `try` is embedded as an `Except`; the `catch` turns any
error into the trailing `return []`. -/

inductive FetchEnv where
  | throws
  | nonOk
  | ok (titles snippets : List String)

/-- `.replace(/<[^>]*>/g, '')` — drop everything between `<` and `>`. -/
def stripTagsAux : List Char → Bool → List Char
  | [], _ => []
  | c :: rest, inTag =>
    if c == '<' then stripTagsAux rest true
    else if c == '>' then stripTagsAux rest false
    else if inTag then stripTagsAux rest true
    else c :: stripTagsAux rest false

/-- `.replace(/<[^>]*>/g, '').trim()` applied to one regex match. -/
def cleanStr (s : String) : String :=
  (String.mk (stripTagsAux s.data false)).trim

/-- The result-building loop: `for (i = 0; i < Math.min(titleMatches.length, 3); i++)`,
with `snippetMatches[i]?. … || ''` when the snippet is missing. -/
def parsedResults (titles snippets : List String) : List (String × String) :=
  (List.range (min titles.length 3)).map fun i =>
    (cleanStr (titles.getD i ""),
     match snippets.get? i with
     | some s => cleanStr s
     | none => "")

/-- The `try` body of `fetchSearchResults`. -/
def fetchTry : FetchEnv → Except String (List (String × String))
  | .throws => .error "Search error"
  | .nonOk => .ok []
  | .ok titles snippets =>
    let results := parsedResults titles snippets
    .ok (if results.length > 0 then results else [])

/-- `fetchSearchResults(query)`: the `try` body with every thrown error
caught and turned into the function's final `return []`. -/
def fetchSearchResults (e : FetchEnv) : List (String × String) :=
  match fetchTry e with
  | .ok v => v
  | .error _ => []

/-! ### Report event stream (the POST handler of route.ts, lines 76-145) -/

inductive ReportEvent where
  | progress (message : String)
  | result (title content source : String)
  | complete
  | failure (reason : String)
deriving DecidableEq

def isResult : ReportEvent → Bool
  | .result _ _ _ => true
  | _ => false

def isComplete : ReportEvent → Bool
  | .complete => true
  | _ => false

def isFailure : ReportEvent → Bool
  | .failure _ => true
  | _ => false

def isProgress : ReportEvent → Bool
  | .progress _ => true
  | _ => false

/-- The two frames enqueued by one iteration of the stage loop
(route.ts lines 95-124).  The external search call is made and its result
discarded, exactly as in the source (`await fetchSearchResults(query);`). -/
def stageFrames (env : String → FetchEnv) (topic : String) (n : Nat)
    (isq : Nat × SearchQuery) : List ReportEvent :=
  let _ := fetchSearchResults (env isq.2.query)
  let content := synthesizeContent topic isq.2.query
  [ReportEvent.progress
     ("Searching: " ++ isq.2.perspective ++ " (" ++ toString (isq.1 + 1) ++
      "/" ++ toString n ++ ")..."),
   ReportEvent.result isq.2.perspective content
     ("Deep Research Analysis - " ++ isq.2.perspective)]

/-- The full sequence of data frames enqueued by a run of the stage loop
that reaches the end of the `try` block: one progress and one result frame
per stage, in catalog order, then the completion frame. -/
def runStream (topic : String) (env : String → FetchEnv) : List ReportEvent :=
  (List.enum (searchQueries topic)).flatMap
    (stageFrames env topic (searchQueries topic).length)
  ++ [ReportEvent.complete]

/-- How a stream run terminates: `controller.close()` on the normal path,
`controller.error(error)` from the `catch` block. -/
inductive Terminal where
  | closed
  | errored
deriving DecidableEq

structure StreamOutcome where
  frames : List ReportEvent
  terminal : Terminal
deriving DecidableEq

/-- A stream run with an optional injected exception: `failAt = none` is the
normal run ending in `controller.close()`; `failAt = some j` models an
unrecoverable exception thrown after `j` frames have been enqueued — the
`catch` block calls `controller.error(error)`, so the already-enqueued
frames stand and the stream ends in the errored state.  No frame of type
`failure` is ever enqueued by the source. -/
def streamOutcome (topic : String) (env : String → FetchEnv) :
    Option Nat → StreamOutcome
  | none => ⟨runStream topic env, Terminal.closed⟩
  | some j => ⟨(runStream topic env).take j, Terminal.errored⟩

/-- The `result` payloads of a frame sequence, in emission order. -/
def resultsOf (tr : List ReportEvent) : List (String × String × String) :=
  tr.filterMap fun e =>
    match e with
    | .result t c s => some (t, c, s)
    | _ => none

/-! ### Request handling (`POST`, route.ts lines 76-79)

`await request.json()` throws on a malformed body, before the stream is
constructed, so no frame is emitted.  A valid body may lack the `topic`
field; destructuring then yields `undefined`, which JavaScript template
interpolation renders as the string `"undefined"`.  There is no topic
validation in the handler. -/

inductive ReqBody where
  | malformed
  | valid (topic : Option String)

/-- How a (possibly missing) topic value is interpolated into the template
strings of the handler. -/
def jsonTopic : Option String → String
  | some t => t
  | none => "undefined"

/-- The frames emitted for a request: `none` when the handler throws before
creating the stream (malformed body), `some` trace otherwise. -/
def postFrames (b : ReqBody) (env : String → FetchEnv) :
    Option (List ReportEvent) :=
  match b with
  | .malformed => none
  | .valid t => some (runStream (jsonTopic t) env)

/-! ### Suggested filename
(`topic.replace(/[^a-z0-9]/gi, '_').toLowerCase()` + `"_report.pdf"`,
part_001 line 179 and the download handler) -/

/-- One character of `replace(/[^a-z0-9]/gi, '_')` followed by
`toLowerCase()`: the regex replaces every single non-ASCII-alphanumeric
character (runs are not collapsed). -/
def sanitizeChar (c : Char) : Char :=
  if c.isAlphanum then c.toLower else '_'

def sanitizeTopic (topic : String) : String :=
  String.mk (topic.data.map sanitizeChar)

def suggestedFilename (topic : String) : String :=
  sanitizeTopic topic ++ "_report.pdf"

/-- Modelled from the spec: the filename derivation as §4.5 words it —
lower-case the topic and replace every *maximal run* of non-alphanumeric
characters with a *single* separator, then append the fixed suffix.  Used
only to compare the spec's wording with the source's derivation. -/
def collapseAux : List Char → Bool → List Char
  | [], _ => []
  | c :: rest, prevSep =>
    if c.isAlphanum then c.toLower :: collapseAux rest false
    else if prevSep then collapseAux rest true
    else '_' :: collapseAux rest true

/-- Modelled from the spec: see `collapseAux`. -/
def specFilename (topic : String) : String :=
  String.mk (collapseAux topic.data false) ++ "_report.pdf"

/-! ### PDF layout engine (the generate-pdf POST handler, part_001)

Page geometry: jsPDF A4 portrait in millimetres.  Text wrapping
(`doc.splitTextToSize`) and text measurement (`doc.getTextWidth`) belong to
the external vector-drawing collaborator and are passed in as oracles
`wrapF text maxWidth fontSize` and `widthF text`.  The generation date
(`new Date().toLocaleDateString(...)`) is likewise an external input.
Every coordinate the cursor logic computes or compares is integral
(margin 20, advances 6/7/10/12/15, thresholds 8/10/12, page 210 x 297), so
coordinates are embedded as integers; only the two centred cover-title
coordinates divide by 2, where integer division may round a half unit down
— no claim concerns those two decorative coordinates.
Pure state ops (font, colour, line width) configure how primitives render
and are not draw operations; the draw operations recorded are text runs,
link-annotated text runs, rectangle fills and line strokes. -/

structure SearchResult where
  title : String
  content : String
  source : String

def pageWidth : ℤ := 210
def pageHeight : ℤ := 297
def margin : ℤ := 20
def contentWidth : ℤ := pageWidth - 2 * margin

inductive DrawOp where
  | text (s : String) (x y : ℤ)
  | textCentered (s : String) (x y : ℤ)
  | link (s : String) (x y : ℤ) (page : Nat)
  | rect (x y w h : ℤ)
  | line (x1 y1 x2 y2 : ℤ)
deriving DecidableEq

/-- The y-coordinate at which a draw operation is anchored. -/
def yOf : DrawOp → ℤ
  | .text _ _ y => y
  | .textCentered _ _ y => y
  | .link _ _ y _ => y
  | .rect _ y _ _ => y
  | .line _ y1 _ _ => y1

/-- Layout state: the pages already left behind, the page currently being
drawn on (jsPDF always draws on the page most recently added during this
phase), and the running vertical cursor `yPosition`. -/
structure LState where
  done : List (List DrawOp)
  cur : List DrawOp
  y : ℤ

/-- Record one draw operation on the current page. -/
def emit (op : DrawOp) (st : LState) : LState :=
  { st with cur := st.cur ++ [op] }

/-- `checkAndAddPage(requiredSpace)` (part_001 lines 33-40): if the cursor
plus the required space passes the printable area, `doc.addPage()` and the
cursor resets to the margin. -/
def checkAndAddPage (req : ℤ) (st : LState) : LState :=
  if st.y + req > pageHeight - margin then
    { done := st.done ++ [st.cur], cur := [], y := margin }
  else st

/-- Embedding of `topic.toUpperCase()`: upper-case every character. -/
def toUpperStr (s : String) : String :=
  String.mk (s.data.map Char.toUpper)

/-- The cover page (part_001 lines 48-76): full-bleed rectangle, the
uppercased topic wrapped and centred as a block (its own `titleY` cursor,
not `yPosition`), then the subtitle and the date centred near the bottom. -/
def coverOps (wrapF : String → ℤ → ℤ → List String) (widthF : String → ℤ)
    (topic dateStr : String) : List DrawOp :=
  let titleLines := wrapF (toUpperStr topic) (contentWidth - 20) 32
  let titleHeight : ℤ := titleLines.length * 12
  [DrawOp.rect 0 0 pageWidth pageHeight]
  ++ (titleLines.enum.map fun jl =>
        DrawOp.text jl.2 ((pageWidth - widthF jl.2) / 2)
          ((pageHeight - titleHeight) / 2 + jl.1 * 12))
  ++ [DrawOp.textCentered "Deep Research Report" (pageWidth / 2) (pageHeight - 40),
      DrawOp.textCentered dateStr (pageWidth / 2) (pageHeight - 30)]

/-- One iteration of the TOC loop (part_001 lines 92-99): page-break check,
then `textWithLink` of `"{index+1}. {title}"` targeting page `index + 3`,
then advance by 7. -/
def tocStep (st : LState) (ir : Nat × SearchResult) : LState :=
  let st := checkAndAddPage 10 st
  let st := emit (.link (toString (ir.1 + 1) ++ ". " ++ ir.2.title)
      (margin + 5) st.y (ir.1 + 3)) st
  { st with y := st.y + 7 }

/-- One iteration of the section loop (part_001 lines 102-152): a fresh
page, the `SECTION {index+1}` label, the wrapped title (check 12, advance
10 per line), a gap of 5, the wrapped body (check 8, advance 6 per line), a
gap of 10, the source line (check 10), a gap of 5, and the divider rule. -/
def sectionStep (wrapF : String → ℤ → ℤ → List String)
    (st : LState) (ir : Nat × SearchResult) : LState :=
  let st : LState := { done := st.done ++ [st.cur], cur := [], y := margin }
  let st := emit (.text ("SECTION " ++ toString (ir.1 + 1)) margin st.y) st
  let st : LState := { st with y := st.y + 10 }
  let titleLines := wrapF ir.2.title contentWidth 20
  let st := titleLines.foldl (fun st line =>
    let st := checkAndAddPage 12 st
    let st := emit (.text line margin st.y) st
    { st with y := st.y + 10 }) st
  let st : LState := { st with y := st.y + 5 }
  let contentLines := wrapF ir.2.content contentWidth 11
  let st := contentLines.foldl (fun st line =>
    let st := checkAndAddPage 8 st
    let st := emit (.text line margin st.y) st
    { st with y := st.y + 6 }) st
  let st : LState := { st with y := st.y + 10 }
  let st := checkAndAddPage 10 st
  let st := emit (.text ("Source: " ++ ir.2.source) margin st.y) st
  let st : LState := { st with y := st.y + 5 }
  emit (.line margin st.y (pageWidth - margin) st.y) st

/-- Layout state after cover, TOC and all section pages, before the footer
pass. -/
def contentState (wrapF : String → ℤ → ℤ → List String)
    (widthF : String → ℤ) (topic dateStr : String)
    (results : List SearchResult) : LState :=
  let st0 : LState :=
    { done := [], cur := coverOps wrapF widthF topic dateStr, y := margin }
  let st1 : LState := { done := st0.done ++ [st0.cur], cur := [], y := margin }
  let st2 := emit (.text "Table of Contents" margin st1.y) st1
  let st2 : LState := { st2 with y := st2.y + 15 }
  let st3 := (List.enum results).foldl tocStep st2
  (List.enum results).foldl (sectionStep wrapF) st3

/-- The ordered pages of a layout state. -/
def pagesOf (st : LState) : List (List DrawOp) :=
  st.done ++ [st.cur]

/-- The content pages of a layout run, before the footer pass. -/
def contentPages (wrapF : String → ℤ → ℤ → List String)
    (widthF : String → ℤ) (topic dateStr : String)
    (results : List SearchResult) : List (List DrawOp) :=
  pagesOf (contentState wrapF widthF topic dateStr results)

/-- The footer draw operation stamped on 1-based page `i` of `total`
pages. -/
def footerOp (topic : String) (i total : Nat) : DrawOp :=
  DrawOp.textCentered
    (topic ++ " - Page " ++ toString i ++ " of " ++ toString total)
    (pageWidth / 2) (pageHeight - 10)

/-- The footer pass (part_001 lines 154-170): walk every page, stamping all
but the first (`if (i > 1)`) with the centred footer near the bottom.
`idx` is the 0-based position of the page at the head of the remaining
list. -/
def addFooters (topic : String) (total : Nat) :
    Nat → List (List DrawOp) → List (List DrawOp)
  | _, [] => []
  | idx, p :: rest =>
    (if idx = 0 then p else p ++ [footerOp topic (idx + 1) total])
      :: addFooters topic total (idx + 1) rest

/-- The full layout (`layout(topic, blocks)`): content pages followed by the
footer pass over `doc.getNumberOfPages()` pages. -/
def layout (wrapF : String → ℤ → ℤ → List String) (widthF : String → ℤ)
    (topic dateStr : String) (results : List SearchResult) :
    List (List DrawOp) :=
  let pages := contentPages wrapF widthF topic dateStr results
  addFooters topic pages.length 0 pages

/-- Recognizes footer draw operations: centred text on the footer baseline
`pageHeight - 10`. -/
def isFooter : DrawOp → Bool
  | .textCentered _ x y => x == pageWidth / 2 && y == pageHeight - 10
  | _ => false

/-- All TOC link targets of a document, in drawing order. -/
def tocLinks (pages : List (List DrawOp)) : List Nat :=
  pages.flatten.filterMap fun op =>
    match op with
    | .link _ _ _ p => some p
    | _ => none

/-- The 1-based index of the page bearing the `SECTION {i+1}` label of
0-based section `i`, when one exists. -/
def sectionStartPage (pages : List (List DrawOp)) (i : Nat) : Option Nat :=
  (pages.findIdx? fun ops =>
    ops.any fun op =>
      match op with
      | .text s _ _ => s == "SECTION " ++ toString (i + 1)
      | _ => false).map (· + 1)

/-! ### Specification-level predicates used in theorem statements -/

/-- The progress frame the handler enqueues for stage `i`. -/
def progressFrame (topic : String) (i : Nat) : ReportEvent :=
  ReportEvent.progress
    ("Searching: " ++ stagePerspective topic i ++ " (" ++ toString (i + 1) ++
     "/" ++ toString (searchQueries topic).length ++ ")...")

/-- The result frame the handler enqueues for stage `i`. -/
def resultFrame (topic : String) (i : Nat) : ReportEvent :=
  ReportEvent.result (stagePerspective topic i)
    (synthesizeContent topic (stageQuery topic i))
    ("Deep Research Analysis - " ++ stagePerspective topic i)

/-- Every draw operation of every page of a layout state satisfies `P`. -/
def AllOpsP (P : DrawOp → Prop) (st : LState) : Prop :=
  (∀ p ∈ st.done, ∀ op ∈ p, P op) ∧ (∀ op ∈ st.cur, P op)

/-- A draw operation is not footer-shaped. -/
def notFooterP (op : DrawOp) : Prop :=
  isFooter op = false

/-- The cursor invariant carried through TOC and section layout: every
operation already recorded on a non-cover page sits inside the printable
band, the cursor never falls below the top margin, and the cover page has
been left behind. -/
def BodyInv (st : LState) : Prop :=
  (∀ p ∈ st.done.drop 1, ∀ op ∈ p,
     margin ≤ yOf op ∧ yOf op ≤ pageHeight - margin) ∧
  (∀ op ∈ st.cur, margin ≤ yOf op ∧ yOf op ≤ pageHeight - margin) ∧
  margin ≤ st.y ∧ st.done ≠ []

/-! ### Concrete instantiations used by counterexamples and witnesses -/

/-- Split a character list at every occurrence of a marker character. -/
def splitCharsOn (c : Char) : List Char → List (List Char)
  | [] => [[]]
  | a :: rest =>
    let r := splitCharsOn c rest
    if a == c then [] :: r
    else
      match r with
      | [] => [[a]]
      | h :: t => (a :: h) :: t

/-- A concrete wrapping oracle: split on the `|` marker. -/
def wrapBars : String → ℤ → ℤ → List String :=
  fun t _ _ => (splitCharsOn '|' t.data).map String.mk

/-- A concrete measurement oracle. -/
def widthZero : String → ℤ := fun _ => 0

/-- A concrete retrieval environment. -/
def envThrows : String → FetchEnv := fun _ => FetchEnv.throws

/-- A two-block input whose first block's body wraps onto 40 lines, so that
its section spans two pages. -/
def longBlocks : List SearchResult :=
  [⟨"T1",
    "x|x|x|x|x|x|x|x|x|x|x|x|x|x|x|x|x|x|x|x|x|x|x|x|x|x|x|x|x|x|x|x|x|x|x|x|x|x|x|x",
    "S1"⟩,
   ⟨"T2", "c2", "S2"⟩]

/-! ## Theorems -/

/-! ### C10 — the external search call is total and bounded -/

/-- C10: for every behaviour of the external HTTP search call (network
failure, non-OK status, or a body with any numbers of title and snippet
matches), `fetchSearchResults` returns normally — the `catch` turns every
thrown error into the plain value `[]` — and its result holds at most 3
entries. -/
theorem fetch_total_and_bounded :
    (∀ e : FetchEnv, (fetchSearchResults e).length ≤ 3) ∧
    fetchSearchResults FetchEnv.throws = [] := by
  refine ⟨?_, rfl⟩
  intro e
  cases e with
  | throws => simp [fetchSearchResults, fetchTry]
  | nonOk => simp [fetchSearchResults, fetchTry]
  | ok titles snippets =>
    simp only [fetchSearchResults, fetchTry]
    split
    · simp [parsedResults]
    · simp

/-! ### C5 — suggested filename derivation -/

/-- C5 counterexample: the source replaces every single non-alphanumeric
character with a separator; it does not collapse a maximal run into one
separator as the claim states, so the two derivations differ on "a!!b". -/
theorem filename_not_run_collapsed :
    suggestedFilename "a!!b" = "a__b_report.pdf" ∧
    specFilename "a!!b" = "a_b_report.pdf" ∧
    suggestedFilename "a!!b" ≠ specFilename "a!!b" := by
  refine ⟨by decide, by decide, by decide⟩

/-- C5 amended: the suggested filename lower-cases the topic and replaces
every non-alphanumeric character individually with a separator (runs are
not collapsed — the length always equals the topic length plus the fixed
suffix length), the derivation is deterministic and never empty, and a
punctuation-only topic yields the fixed all-separator fallback. -/
theorem filename_per_char (topic : String) :
    (suggestedFilename topic).length = topic.length + 11 ∧
    suggestedFilename topic ≠ "" ∧
    suggestedFilename "!!!" = "____report.pdf" := by
  have hdata : (suggestedFilename topic).data
      = topic.data.map sanitizeChar ++ "_report.pdf".data := by
    simp [suggestedFilename, sanitizeTopic, String.data_append]
  have hlen : (suggestedFilename topic).length = topic.length + 11 := by
    show (suggestedFilename topic).data.length = topic.data.length + 11
    rw [hdata, List.length_append, List.length_map]
    rfl
  refine ⟨hlen, ?_, by decide⟩
  intro h
  rw [h] at hlen
  have h0 : (0 : Nat) = topic.length + 11 := hlen
  omega

/-! ### C2 — event order of a successful pipeline run -/

/-- C2: for every non-empty topic, a run of the stage loop that reaches the
end of its `try` block enqueues exactly 8 result frames — one per catalog
stage, in catalog order — followed by exactly one completion frame; the
result frame of stage `i` sits immediately after stage `i`'s progress frame
and before stage `i+1`'s progress frame, and nothing follows the completion
frame. -/
theorem pipeline_success_events (topic : String) (env : String → FetchEnv)
    (_h : topic ≠ "") :
    (searchQueries topic).length = 8 ∧
    (runStream topic env).length = 17 ∧
    (∀ i, i < 8 →
      (runStream topic env).get? (2 * i) = some (progressFrame topic i) ∧
      (runStream topic env).get? (2 * i + 1) = some (resultFrame topic i)) ∧
    (runStream topic env).get? 16 = some ReportEvent.complete ∧
    (runStream topic env).countP isResult = 8 ∧
    (runStream topic env).countP isComplete = 1 ∧
    (runStream topic env).countP isFailure = 0 := by
  refine ⟨rfl, rfl, ?_, rfl, rfl, rfl, rfl⟩
  intro i hi
  interval_cases i <;> exact ⟨rfl, rfl⟩

/-- C2 witness at the concrete topic "AI". -/
theorem pipeline_success_events_w :
    (searchQueries "AI").length = 8 ∧
    (runStream "AI" envThrows).countP isResult = 8 := by
  have h := pipeline_success_events "AI" envThrows (by decide)
  exact ⟨h.1, h.2.2.2.2.1⟩

/-! ### C7 — emitted results do not depend on the retrieval outcome -/

/-- C7: for a fixed topic, the frames of a run — in particular its result
blocks — are a deterministic function of the topic alone: two runs whose
external retrieval calls behave arbitrarily differently (any success, empty
or throwing outcome per query) emit identical frames, because the source
discards the value of `fetchSearchResults`. -/
theorem results_independent_of_fetch (topic : String)
    (env1 env2 : String → FetchEnv) :
    resultsOf (runStream topic env1) = resultsOf (runStream topic env2) ∧
    runStream topic env1 = runStream topic env2 :=
  ⟨rfl, rfl⟩

/-! ### C3 — behaviour on an unrecoverable exception -/

/-- C3 counterexample: an exception after one enqueued frame ends the
stream in the errored state (`controller.error`) with zero `failure` frames
among the emitted frames — not with exactly one terminal `Failure` frame as
the claim states. -/
theorem stream_error_emits_no_failure_frame :
    (streamOutcome "AI" envThrows (some 1)).terminal = Terminal.errored ∧
    (streamOutcome "AI" envThrows (some 1)).frames.countP isFailure = 0 ∧
    ¬ (streamOutcome "AI" envThrows (some 1)).frames.countP isFailure = 1 := by
  refine ⟨rfl, rfl, by decide⟩

/-- C3 amended: if an unrecoverable exception occurs during a run, the
stream terminates early in the errored state via `controller.error` —
no `failure` frame is ever enqueued — and the frames already emitted stand
unretracted as a prefix of the successful run's frame sequence; a run
without exception closes normally. -/
theorem stream_error_behaviour (topic : String) (env : String → FetchEnv)
    (j : Nat) :
    (streamOutcome topic env (some j)).terminal = Terminal.errored ∧
    (streamOutcome topic env (some j)).frames.countP isFailure = 0 ∧
    (streamOutcome topic env (some j)).frames ++ (runStream topic env).drop j
      = runStream topic env ∧
    (streamOutcome topic env none).terminal = Terminal.closed := by
  refine ⟨rfl, ?_, List.take_append_drop j _, rfl⟩
  have h0 : (runStream topic env).countP isFailure = 0 := rfl
  have hsub : List.Sublist ((runStream topic env).take j)
      (runStream topic env) := List.take_sublist _ _
  have hle := hsub.countP_le isFailure
  show List.countP isFailure ((runStream topic env).take j) = 0
  omega

/-! ### C6 — request rejection -/

/-- C6 counterexample: a request with an empty topic is not rejected — the
stage loop runs and emits all 8 result frames and the completion frame. -/
theorem empty_topic_not_rejected :
    (postFrames (ReqBody.valid (some "")) envThrows).isSome = true ∧
    ((postFrames (ReqBody.valid (some "")) envThrows).getD []).countP isResult
      = 8 ∧
    ((postFrames (ReqBody.valid (some "")) envThrows).getD []).countP
      isComplete = 1 := by
  refine ⟨rfl, rfl, rfl⟩

/-- C6 amended: a request whose body is malformed throws before the stream
is created, so no frame is emitted; but an empty or missing topic is NOT
rejected — the handler performs no topic validation, runs every stage, and
emits the usual 8 result frames and one completion frame (a missing topic
is interpolated as the string "undefined"). -/
theorem request_rejection (env : String → FetchEnv) :
    postFrames ReqBody.malformed env = none ∧
    (∀ t, ∃ tr, postFrames (ReqBody.valid t) env = some tr ∧
      tr.countP isResult = 8 ∧ tr.countP isComplete = 1 ∧
      tr.getLast? = some ReportEvent.complete) := by
  refine ⟨rfl, fun t => ⟨runStream (jsonTopic t) env, rfl, rfl, rfl, ?_⟩⟩
  exact List.getLast?_concat _

/-! ### Substring lemmas for the synthesizer

A keyword that contains no space and occurs in `a ++ ' ' :: b` occurs
entirely inside `a` or entirely inside `b`: it cannot straddle the
separating space. -/

theorem leadsWith_extend {k a : List Char} (s : List Char)
    (h : leadsWith k a = true) : leadsWith k (a ++ s) = true := by
  induction k generalizing a with
  | nil => rfl
  | cons x xs ih =>
    cases a with
    | nil => simp [leadsWith] at h
    | cons c a' =>
      simp only [leadsWith, List.cons_append, Bool.and_eq_true] at h ⊢
      exact ⟨h.1, ih h.2⟩

theorem leadsWith_sep :
    ∀ k : List Char, k.contains sepChar = false →
      ∀ a b : List Char, leadsWith k (a ++ sepChar :: b) = true →
        leadsWith k a = true := by
  intro k
  induction k with
  | nil => intro _ a b _; rfl
  | cons x xs ih =>
    intro hs a b h
    have hs' : (sepChar == x) = false ∧ xs.contains sepChar = false := by
      simpa [List.contains_cons, Bool.or_eq_false_iff] using hs
    cases a with
    | nil =>
      exfalso
      simp only [List.nil_append, leadsWith, Bool.and_eq_true] at h
      have : x = sepChar := by simpa using h.1
      have : (sepChar == x) = true := by simp [this]
      rw [hs'.1] at this
      exact Bool.false_ne_true this
    | cons c a' =>
      simp only [List.cons_append, leadsWith, Bool.and_eq_true] at h ⊢
      exact ⟨h.1, ih hs'.2 a' b h.2⟩

theorem hasSub_nil_pat : ∀ s : List Char, hasSub s [] = true
  | [] => rfl
  | _ :: _ => by simp [hasSub, leadsWith]

theorem hasSub_of_leadsWith {k s : List Char} (h : leadsWith k s = true) :
    hasSub s k = true := by
  cases s with
  | nil =>
    cases k with
    | nil => rfl
    | cons x xs => simp [leadsWith] at h
  | cons c rest => simp [hasSub, h]

theorem hasSub_append_right {a k : List Char} (s : List Char)
    (h : hasSub a k = true) : hasSub (a ++ s) k = true := by
  induction a with
  | nil =>
    have hk : k = [] := by simpa [hasSub, List.isEmpty_iff] using h
    subst hk
    exact hasSub_nil_pat s
  | cons c rest ih =>
    simp only [hasSub, Bool.or_eq_true] at h
    simp only [List.cons_append, hasSub, Bool.or_eq_true]
    rcases h with h | h
    · left
      have := leadsWith_extend s h
      simpa [List.cons_append] using this
    · right
      exact ih h

theorem hasSub_append_left {b k : List Char} (a : List Char)
    (h : hasSub b k = true) : hasSub (a ++ b) k = true := by
  induction a with
  | nil => simpa using h
  | cons c rest ih =>
    simp only [List.cons_append, hasSub, Bool.or_eq_true]
    right
    exact ih

theorem hasSub_sep (k : List Char) (hk : k ≠ [])
    (hs : k.contains sepChar = false) :
    ∀ a b : List Char,
      hasSub (a ++ sepChar :: b) k = (hasSub a k || hasSub b k) := by
  intro a b
  induction a with
  | nil =>
    cases k with
    | nil => exact absurd rfl hk
    | cons x xs =>
      have hs' : (sepChar == x) = false := by
        simpa [List.contains_cons, Bool.or_eq_false_iff] using And.left ∘ id <|
          (by simpa [List.contains_cons, Bool.or_eq_false_iff] using hs :
            (sepChar == x) = false ∧ xs.contains sepChar = false)
      have hlw : leadsWith (x :: xs) (sepChar :: b) = false := by
        simp only [leadsWith]
        have : (x == sepChar) = false := by
          cases hxe : x == sepChar with
          | false => rfl
          | true =>
            exfalso
            have : x = sepChar := by simpa using hxe
            rw [this] at hs'
            simp at hs'
        simp [this]
      simp [hasSub, hlw, List.isEmpty]
  | cons c a' ih =>
    simp only [List.cons_append, hasSub, List.append_eq]
    rw [ih]
    have hL : leadsWith k (c :: (a' ++ sepChar :: b)) = leadsWith k (c :: a') := by
      cases hcase : leadsWith k (c :: a') with
      | true =>
        have := leadsWith_extend (sepChar :: b) hcase
        simpa [List.cons_append] using this
      | false =>
        cases hcase2 : leadsWith k (c :: (a' ++ sepChar :: b)) with
        | false => rfl
        | true =>
          exfalso
          have hgoal := leadsWith_sep k hs (c :: a') b
            (by simpa [List.cons_append] using hcase2)
          rw [hcase] at hgoal
          exact Bool.false_ne_true hgoal
    rw [hL, Bool.or_assoc]

/-- `containsSub` distributes over a space-separated concatenation for a
space-free, non-empty keyword. -/
theorem containsSub_split (topic phrase k : String) (hk : k.data ≠ [])
    (hs : k.data.contains sepChar = false) :
    containsSub (topic ++ " " ++ phrase) k
      = (containsSub topic k || containsSub phrase k) := by
  have hdata : (topic ++ " " ++ phrase).data
      = topic.data ++ sepChar :: phrase.data := by
    rw [String.data_append, String.data_append]
    have h1 : (" " : String).data = [sepChar] := by decide
    rw [h1, List.append_assoc]
    rfl
  unfold containsSub
  rw [hdata]
  exact hasSub_sep k.data hk hs topic.data phrase.data

/-! ### C4 — synthesizer template selection -/

theorem firstWord_q0 : firstWordOf "overview and introduction" = "overview" := by decide

theorem firstWord_q1 : firstWordOf "historical development" = "historical" := by decide

theorem firstWord_q2 : firstWordOf "current trends" = "current" := by decide

theorem firstWord_q3 : firstWordOf "practical applications" = "practical" := by decide

theorem firstWord_q4 : firstWordOf "challenges and limitations" = "challenges" := by decide

theorem firstWord_q5 : firstWordOf "future prospects" = "future" := by decide

theorem firstWord_q6 : firstWordOf "best practices" = "best" := by decide

theorem firstWord_q7 : firstWordOf "case studies and examples" = "case" := by decide

/-- C4 counterexample: the keyword scan runs over the whole rendered query,
topic included, so the topic "overview" makes stage 1 (Historical Context,
semantic category `history`) come back with the `overview` template — not
the template of its own category, as the claim asserts for every topic. -/
theorem synthesizer_wrong_template_for_keyword_topic :
    synthesizeContent "overview" (stageQuery "overview" 1)
      = overviewTemplate "overview" ∧
    stageCategoryTemplate 1 "overview" = historyTemplate "overview" ∧
    overviewTemplate "overview" ≠ historyTemplate "overview" := by
  exact ⟨rfl, rfl, by decide⟩

/-- C4 amended: for every topic that contains none of the eight matching
keywords (overview, historical, current, practical, challenges, future,
best, case) as a substring, the synthesizer returns exactly the template of
each catalog stage's semantic category, with the topic substituted; and a
query containing no keyword at all falls back to the overview template.
(For topics containing a keyword, an earlier-listed category can be
selected instead, as the counterexample shows.) -/
theorem synthesizer_stage_category (topic : String)
    (hclean : ∀ k ∈ synthKeywords, containsSub topic k = false) :
    (∀ i, i < 8 → synthesizeContent topic (stageQuery topic i)
        = stageCategoryTemplate i topic) ∧
    (∀ Q : String, (∀ k ∈ synthKeywords, containsSub Q k = false) →
        synthesizeContent topic Q = overviewTemplate topic) := by
  have hk : ∀ k ∈ synthKeywords,
      k.data ≠ [] ∧ k.data.contains sepChar = false := by decide
  constructor
  · intro i hi
    have hsplit : ∀ p : String, ∀ k ∈ synthKeywords,
        containsSub (topic ++ " " ++ p) k = containsSub p k := by
      intro p k hkmem
      rw [containsSub_split topic p k (hk k hkmem).1 (hk k hkmem).2,
        hclean k hkmem]
      simp
    interval_cases i
    · have e : stageQuery topic 0 = topic ++ " " ++ "overview and introduction" := by
        show topic ++ " overview and introduction" = _
        rw [String.append_assoc]
        exact congrArg _ (by decide)
      have a0 : containsSub (stageQuery topic 0) "overview" = true := by
        rw [e, hsplit _ _ (by decide)]; decide
      simp [synthesizeContent, synthQueries, List.findIdx?_cons,
        firstWord_q0, a0, stageCategoryTemplate, perspectiveKeys]
    · have e : stageQuery topic 1 = topic ++ " " ++ "historical development" := by
        show topic ++ " historical development" = _
        rw [String.append_assoc]
        exact congrArg _ (by decide)
      have a0 : containsSub (stageQuery topic 1) "overview" = false := by
        rw [e, hsplit _ _ (by decide)]; decide
      have a1 : containsSub (stageQuery topic 1) "historical" = true := by
        rw [e, hsplit _ _ (by decide)]; decide
      simp [synthesizeContent, synthQueries, List.findIdx?_cons,
        firstWord_q0, firstWord_q1, a0, a1, stageCategoryTemplate,
        perspectiveKeys]
    · have e : stageQuery topic 2
          = topic ++ " " ++ "current trends and innovations" := by
        show topic ++ " current trends and innovations" = _
        rw [String.append_assoc]
        exact congrArg _ (by decide)
      have a0 : containsSub (stageQuery topic 2) "overview" = false := by
        rw [e, hsplit _ _ (by decide)]; decide
      have a1 : containsSub (stageQuery topic 2) "historical" = false := by
        rw [e, hsplit _ _ (by decide)]; decide
      have a2 : containsSub (stageQuery topic 2) "current" = true := by
        rw [e, hsplit _ _ (by decide)]; decide
      simp [synthesizeContent, synthQueries, List.findIdx?_cons,
        firstWord_q0, firstWord_q1, firstWord_q2, a0, a1, a2,
        stageCategoryTemplate, perspectiveKeys]
    · have e : stageQuery topic 3 = topic ++ " " ++ "practical applications" := by
        show topic ++ " practical applications" = _
        rw [String.append_assoc]
        exact congrArg _ (by decide)
      have a0 : containsSub (stageQuery topic 3) "overview" = false := by
        rw [e, hsplit _ _ (by decide)]; decide
      have a1 : containsSub (stageQuery topic 3) "historical" = false := by
        rw [e, hsplit _ _ (by decide)]; decide
      have a2 : containsSub (stageQuery topic 3) "current" = false := by
        rw [e, hsplit _ _ (by decide)]; decide
      have a3 : containsSub (stageQuery topic 3) "practical" = true := by
        rw [e, hsplit _ _ (by decide)]; decide
      simp [synthesizeContent, synthQueries, List.findIdx?_cons,
        firstWord_q0, firstWord_q1, firstWord_q2, firstWord_q3, a0, a1, a2,
        a3, stageCategoryTemplate, perspectiveKeys]
    · have e : stageQuery topic 4
          = topic ++ " " ++ "challenges and limitations" := by
        show topic ++ " challenges and limitations" = _
        rw [String.append_assoc]
        exact congrArg _ (by decide)
      have a0 : containsSub (stageQuery topic 4) "overview" = false := by
        rw [e, hsplit _ _ (by decide)]; decide
      have a1 : containsSub (stageQuery topic 4) "historical" = false := by
        rw [e, hsplit _ _ (by decide)]; decide
      have a2 : containsSub (stageQuery topic 4) "current" = false := by
        rw [e, hsplit _ _ (by decide)]; decide
      have a3 : containsSub (stageQuery topic 4) "practical" = false := by
        rw [e, hsplit _ _ (by decide)]; decide
      have a4 : containsSub (stageQuery topic 4) "challenges" = true := by
        rw [e, hsplit _ _ (by decide)]; decide
      simp [synthesizeContent, synthQueries, List.findIdx?_cons,
        firstWord_q0, firstWord_q1, firstWord_q2, firstWord_q3, firstWord_q4,
        a0, a1, a2, a3, a4, stageCategoryTemplate, perspectiveKeys]
    · have e : stageQuery topic 5 = topic ++ " " ++ "future prospects" := by
        show topic ++ " future prospects" = _
        rw [String.append_assoc]
        exact congrArg _ (by decide)
      have a0 : containsSub (stageQuery topic 5) "overview" = false := by
        rw [e, hsplit _ _ (by decide)]; decide
      have a1 : containsSub (stageQuery topic 5) "historical" = false := by
        rw [e, hsplit _ _ (by decide)]; decide
      have a2 : containsSub (stageQuery topic 5) "current" = false := by
        rw [e, hsplit _ _ (by decide)]; decide
      have a3 : containsSub (stageQuery topic 5) "practical" = false := by
        rw [e, hsplit _ _ (by decide)]; decide
      have a4 : containsSub (stageQuery topic 5) "challenges" = false := by
        rw [e, hsplit _ _ (by decide)]; decide
      have a5 : containsSub (stageQuery topic 5) "future" = true := by
        rw [e, hsplit _ _ (by decide)]; decide
      simp [synthesizeContent, synthQueries, List.findIdx?_cons,
        firstWord_q0, firstWord_q1, firstWord_q2, firstWord_q3, firstWord_q4,
        firstWord_q5, a0, a1, a2, a3, a4, a5, stageCategoryTemplate,
        perspectiveKeys]
    · have e : stageQuery topic 6 = topic ++ " " ++ "best practices" := by
        show topic ++ " best practices" = _
        rw [String.append_assoc]
        exact congrArg _ (by decide)
      have a0 : containsSub (stageQuery topic 6) "overview" = false := by
        rw [e, hsplit _ _ (by decide)]; decide
      have a1 : containsSub (stageQuery topic 6) "historical" = false := by
        rw [e, hsplit _ _ (by decide)]; decide
      have a2 : containsSub (stageQuery topic 6) "current" = false := by
        rw [e, hsplit _ _ (by decide)]; decide
      have a3 : containsSub (stageQuery topic 6) "practical" = false := by
        rw [e, hsplit _ _ (by decide)]; decide
      have a4 : containsSub (stageQuery topic 6) "challenges" = false := by
        rw [e, hsplit _ _ (by decide)]; decide
      have a5 : containsSub (stageQuery topic 6) "future" = false := by
        rw [e, hsplit _ _ (by decide)]; decide
      have a6 : containsSub (stageQuery topic 6) "best" = true := by
        rw [e, hsplit _ _ (by decide)]; decide
      simp [synthesizeContent, synthQueries, List.findIdx?_cons,
        firstWord_q0, firstWord_q1, firstWord_q2, firstWord_q3, firstWord_q4,
        firstWord_q5, firstWord_q6, a0, a1, a2, a3, a4, a5, a6,
        stageCategoryTemplate, perspectiveKeys]
    · have e : stageQuery topic 7
          = topic ++ " " ++ "case studies and examples" := by
        show topic ++ " case studies and examples" = _
        rw [String.append_assoc]
        exact congrArg _ (by decide)
      have a0 : containsSub (stageQuery topic 7) "overview" = false := by
        rw [e, hsplit _ _ (by decide)]; decide
      have a1 : containsSub (stageQuery topic 7) "historical" = false := by
        rw [e, hsplit _ _ (by decide)]; decide
      have a2 : containsSub (stageQuery topic 7) "current" = false := by
        rw [e, hsplit _ _ (by decide)]; decide
      have a3 : containsSub (stageQuery topic 7) "practical" = false := by
        rw [e, hsplit _ _ (by decide)]; decide
      have a4 : containsSub (stageQuery topic 7) "challenges" = false := by
        rw [e, hsplit _ _ (by decide)]; decide
      have a5 : containsSub (stageQuery topic 7) "future" = false := by
        rw [e, hsplit _ _ (by decide)]; decide
      have a6 : containsSub (stageQuery topic 7) "best" = false := by
        rw [e, hsplit _ _ (by decide)]; decide
      have a7 : containsSub (stageQuery topic 7) "case" = true := by
        rw [e, hsplit _ _ (by decide)]; decide
      simp [synthesizeContent, synthQueries, List.findIdx?_cons,
        firstWord_q0, firstWord_q1, firstWord_q2, firstWord_q3, firstWord_q4,
        firstWord_q5, firstWord_q6, firstWord_q7, a0, a1, a2, a3, a4, a5, a6,
        a7, stageCategoryTemplate, perspectiveKeys]
  · intro Q hQ
    have b0 : containsSub Q "overview" = false := hQ _ (by decide)
    have b1 : containsSub Q "historical" = false := hQ _ (by decide)
    have b2 : containsSub Q "current" = false := hQ _ (by decide)
    have b3 : containsSub Q "practical" = false := hQ _ (by decide)
    have b4 : containsSub Q "challenges" = false := hQ _ (by decide)
    have b5 : containsSub Q "future" = false := hQ _ (by decide)
    have b6 : containsSub Q "best" = false := hQ _ (by decide)
    have b7 : containsSub Q "case" = false := hQ _ (by decide)
    simp [synthesizeContent, synthQueries, List.findIdx?_cons,
      firstWord_q0, firstWord_q1, firstWord_q2, firstWord_q3, firstWord_q4,
      firstWord_q5, firstWord_q6, firstWord_q7, b0, b1, b2, b3, b4, b5, b6,
      b7, templateFor]

/-- C4 witness at the concrete keyword-free topic "AI". -/
theorem synthesizer_stage_category_w :
    synthesizeContent "AI" (stageQuery "AI" 1) = stageCategoryTemplate 1 "AI" ∧
    synthesizeContent "AI" "zzz" = overviewTemplate "AI" :=
  ⟨(synthesizer_stage_category "AI" (by decide)).1 1 (by decide),
   (synthesizer_stage_category "AI" (by decide)).2 "zzz" (by decide)⟩

/-! ### Layout invariant machinery -/

theorem foldl_inv {α σ : Type _} (Inv : σ → Prop) (f : σ → α → σ)
    (hstep : ∀ s a, Inv s → Inv (f s a)) :
    ∀ (l : List α) (s : σ), Inv s → Inv (l.foldl f s)
  | [], _, hs => hs
  | a :: l, s, hs => foldl_inv Inv f hstep l (f s a) (hstep s a hs)

theorem mem_drop_one_append {α : Type _} {l : List α} (hne : l ≠ []) (a : α)
    {p : α} (h : p ∈ (l ++ [a]).drop 1) : p ∈ l.drop 1 ∨ p = a := by
  cases l with
  | nil => exact absurd rfl hne
  | cons x xs =>
    simp only [List.cons_append, List.drop_succ_cons, List.drop_zero] at h
    rcases List.mem_append.mp h with h | h
    · left
      simpa using h
    · right
      simpa using h

theorem allOpsP_emit {P : DrawOp → Prop} {st : LState} (op : DrawOp)
    (hst : AllOpsP P st) (hop : P op) : AllOpsP P (emit op st) := by
  refine ⟨hst.1, ?_⟩
  intro o ho
  rcases List.mem_append.mp ho with h | h
  · exact hst.2 o h
  · obtain rfl := List.mem_singleton.mp h
    exact hop

theorem allOpsP_newPage {P : DrawOp → Prop} {st : LState} (y' : ℤ)
    (hst : AllOpsP P st) :
    AllOpsP P { done := st.done ++ [st.cur], cur := [], y := y' } := by
  refine ⟨?_, by intro o ho; simp at ho⟩
  intro p hp
  rcases List.mem_append.mp hp with h | h
  · exact hst.1 p h
  · obtain rfl := List.mem_singleton.mp h
    exact hst.2

theorem allOpsP_check {P : DrawOp → Prop} (r : ℤ) {st : LState}
    (hst : AllOpsP P st) : AllOpsP P (checkAndAddPage r st) := by
  unfold checkAndAddPage
  split
  · exact allOpsP_newPage _ hst
  · exact hst

theorem allOpsP_setY {P : DrawOp → Prop} {st : LState} (y' : ℤ)
    (hst : AllOpsP P st) : AllOpsP P { st with y := y' } :=
  hst

theorem coverOps_notFooter (wrapF : String → ℤ → ℤ → List String)
    (widthF : String → ℤ) (topic dateStr : String) :
    ∀ op ∈ coverOps wrapF widthF topic dateStr, notFooterP op := by
  intro op hop
  unfold coverOps at hop
  rcases List.mem_append.mp hop with h | h
  · rcases List.mem_append.mp h with h | h
    · obtain rfl := List.mem_singleton.mp h
      rfl
    · rcases List.mem_map.mp h with ⟨jl, _, rfl⟩
      rfl
  · rcases List.mem_cons.mp h with rfl | h
    · rfl
    · rcases List.mem_cons.mp h with rfl | h
      · rfl
      · simp at h

theorem tocStep_notFooter {st : LState} (ir : Nat × SearchResult)
    (hst : AllOpsP notFooterP st) : AllOpsP notFooterP (tocStep st ir) :=
  allOpsP_setY _ (allOpsP_emit _ (allOpsP_check 10 hst) rfl)

theorem sectionStep_notFooter (wrapF : String → ℤ → ℤ → List String)
    {st : LState} (ir : Nat × SearchResult) (hst : AllOpsP notFooterP st) :
    AllOpsP notFooterP (sectionStep wrapF st ir) := by
  apply allOpsP_emit
  case hop => rfl
  apply allOpsP_setY
  apply allOpsP_emit
  case hop => rfl
  apply allOpsP_check
  apply allOpsP_setY
  apply foldl_inv (AllOpsP notFooterP)
  case hstep =>
    intro s line hs
    apply allOpsP_setY
    apply allOpsP_emit
    case hop => rfl
    exact allOpsP_check 8 hs
  apply allOpsP_setY
  apply foldl_inv (AllOpsP notFooterP)
  case hstep =>
    intro s line hs
    apply allOpsP_setY
    apply allOpsP_emit
    case hop => rfl
    exact allOpsP_check 12 hs
  apply allOpsP_setY
  apply allOpsP_emit
  case hop => rfl
  exact allOpsP_newPage _ hst

theorem contentState_notFooter (wrapF : String → ℤ → ℤ → List String)
    (widthF : String → ℤ) (topic dateStr : String)
    (results : List SearchResult) :
    AllOpsP notFooterP (contentState wrapF widthF topic dateStr results) := by
  have h0 : AllOpsP notFooterP
      (⟨[], coverOps wrapF widthF topic dateStr, margin⟩ : LState) := by
    refine ⟨?_, coverOps_notFooter wrapF widthF topic dateStr⟩
    intro p hp
    simp at hp
  exact foldl_inv (AllOpsP notFooterP) _
    (fun s ir hs => sectionStep_notFooter wrapF ir hs) _ _
    (foldl_inv (AllOpsP notFooterP) _ (fun s ir hs => tocStep_notFooter ir hs)
      _ _
      (allOpsP_setY _ (allOpsP_emit _ (allOpsP_newPage _ h0) rfl)))

theorem contentPages_notFooter (wrapF : String → ℤ → ℤ → List String)
    (widthF : String → ℤ) (topic dateStr : String)
    (results : List SearchResult) :
    ∀ p ∈ contentPages wrapF widthF topic dateStr results, ∀ op ∈ p,
      isFooter op = false := by
  intro p hp
  have h := contentState_notFooter wrapF widthF topic dateStr results
  unfold contentPages pagesOf at hp
  rcases List.mem_append.mp hp with h' | h'
  · exact h.1 p h'
  · obtain rfl := List.mem_singleton.mp h'
    exact h.2

theorem doneLen_check (r : ℤ) {st : LState} (h : 1 ≤ st.done.length) :
    1 ≤ (checkAndAddPage r st).done.length := by
  unfold checkAndAddPage
  split
  · simp
  · exact h

theorem doneLen_tocStep {st : LState} (ir : Nat × SearchResult)
    (h : 1 ≤ st.done.length) : 1 ≤ (tocStep st ir).done.length :=
  doneLen_check 10 h

theorem doneLen_sectionStep (wrapF : String → ℤ → ℤ → List String)
    {st : LState} (ir : Nat × SearchResult) (_h : 1 ≤ st.done.length) :
    1 ≤ (sectionStep wrapF st ir).done.length := by
  show 1 ≤ (checkAndAddPage 10 _).done.length
  apply doneLen_check
  apply foldl_inv (fun s : LState => 1 ≤ s.done.length)
  case hstep =>
    intro s line hs
    exact doneLen_check 8 hs
  apply foldl_inv (fun s : LState => 1 ≤ s.done.length)
  case hstep =>
    intro s line hs
    exact doneLen_check 12 hs
  show 1 ≤ (st.done ++ [st.cur]).length
  simp

theorem contentState_done_len (wrapF : String → ℤ → ℤ → List String)
    (widthF : String → ℤ) (topic dateStr : String)
    (results : List SearchResult) :
    1 ≤ (contentState wrapF widthF topic dateStr results).done.length := by
  have h1 : 1 ≤ (([] : List (List DrawOp))
      ++ [coverOps wrapF widthF topic dateStr]).length := by
    simp
  exact foldl_inv (fun s : LState => 1 ≤ s.done.length) _
    (fun s ir hs => doneLen_sectionStep wrapF ir hs) _ _
    (foldl_inv (fun s : LState => 1 ≤ s.done.length) _
      (fun s ir hs => doneLen_tocStep ir hs) _ _ h1)

theorem addFooters_length (topic : String) (total : Nat) :
    ∀ (l : List (List DrawOp)) (idx : Nat),
      (addFooters topic total idx l).length = l.length
  | [], _ => rfl
  | p :: rest, idx => by
    simp [addFooters, addFooters_length topic total rest (idx + 1)]

theorem addFooters_get? (topic : String) (total : Nat) :
    ∀ (l : List (List DrawOp)) (idx i : Nat),
      (addFooters topic total idx l).get? i
        = (l.get? i).map fun p =>
            if idx + i = 0 then p
            else p ++ [footerOp topic (idx + i + 1) total] := by
  intro l
  induction l with
  | nil => intro idx i; simp [addFooters]
  | cons p rest ih =>
    intro idx i
    cases i with
    | zero => simp [addFooters]
    | succ n =>
      simp only [addFooters, List.get?_cons_succ, List.get?_cons_zero]
      rw [ih (idx + 1) n]
      have e : idx + 1 + n = idx + (n + 1) := by omega
      rw [e]

theorem isFooter_footerOp (topic : String) (i total : Nat) :
    isFooter (footerOp topic i total) = true := by
  simp [isFooter, footerOp]

/-! ### C9 — footer stamping -/

/-- C9: after any layout run, every page except the cover carries exactly
one footer operation, whose string is `"{topic} - Page {i} of {total}"`
with `i` that page's 1-based index and `total` the final page count; the
cover page carries no footer; and a zero-block layout yields exactly 2
pages (so its footer lands only on page 2). -/
theorem footer_stamping (wrapF : String → ℤ → ℤ → List String)
    (widthF : String → ℤ) (topic dateStr : String)
    (results : List SearchResult) :
    2 ≤ (layout wrapF widthF topic dateStr results).length ∧
    (∀ ops, (layout wrapF widthF topic dateStr results).get? 0 = some ops →
        ops.filter isFooter = []) ∧
    (∀ i ops, (layout wrapF widthF topic dateStr results).get? i = some ops →
        1 ≤ i → ops.filter isFooter
          = [footerOp topic (i + 1)
              (layout wrapF widthF topic dateStr results).length]) ∧
    (layout wrapF widthF topic dateStr []).length = 2 := by
  have hclean := contentPages_notFooter wrapF widthF topic dateStr results
  have hlen : (layout wrapF widthF topic dateStr results).length
      = (contentPages wrapF widthF topic dateStr results).length :=
    addFooters_length topic _ _ 0
  have hclen : (contentPages wrapF widthF topic dateStr results).length
      = (contentState wrapF widthF topic dateStr results).done.length + 1 := by
    unfold contentPages pagesOf
    simp
  have hdone := contentState_done_len wrapF widthF topic dateStr results
  refine ⟨by omega, ?_, ?_, ?_⟩
  · intro ops h
    unfold layout at h
    rw [addFooters_get? topic _ _ 0 0] at h
    simp only [Nat.add_zero, if_pos rfl, Option.map_eq_some'] at h
    obtain ⟨p, hp, rfl⟩ := h
    rw [List.filter_eq_nil_iff]
    intro a ha
    simp [hclean p (List.get?_mem hp) a ha]
  · intro i ops h hi
    unfold layout at h
    rw [addFooters_get? topic _ _ 0 i] at h
    simp only [Nat.zero_add, Option.map_eq_some'] at h
    obtain ⟨p, hp, he⟩ := h
    have hne : ¬ (i = 0) := by omega
    rw [if_neg hne] at he
    rw [← he, List.filter_append]
    have h1 : p.filter isFooter = [] := by
      rw [List.filter_eq_nil_iff]
      intro a ha
      simp [hclean p (List.get?_mem hp) a ha]
    rw [h1, hlen]
    simp [isFooter_footerOp]
  · show (addFooters topic
      (contentPages wrapF widthF topic dateStr []).length 0
      (contentPages wrapF widthF topic dateStr [])).length = 2
    rw [addFooters_length]
    rfl

/-- C9 witness: the zero-block layout for topic "AI" has its footer as the
sole footer operation of page 2. -/
theorem footer_stamping_w :
    ([DrawOp.text "Table of Contents" margin margin,
      footerOp "AI" 2 2] : List DrawOp).filter isFooter = [footerOp "AI" 2 2] := by
  have h := (footer_stamping wrapBars widthZero "AI" "D" []).2.2.1 1
    ([DrawOp.text "Table of Contents" margin margin, footerOp "AI" 2 2])
    (by decide) (by decide)
  simpa using h

/-! ### C8 — cursor invariant machinery -/

theorem bodyInv_newPage {st : LState} (h : BodyInv st) :
    BodyInv { done := st.done ++ [st.cur], cur := [], y := margin } := by
  obtain ⟨hdone, hcur, _hy, hne⟩ := h
  refine ⟨?_, by intro o ho; simp at ho, le_refl _, by simp⟩
  intro p hp op hop
  rcases mem_drop_one_append hne _ hp with h' | rfl
  · exact hdone p h' op hop
  · exact hcur op hop

theorem bodyInv_check (r : ℤ) {st : LState} (h : BodyInv st) :
    BodyInv (checkAndAddPage r st) := by
  unfold checkAndAddPage
  split
  · exact bodyInv_newPage h
  · exact h

theorem check_y_le (r : ℤ) {st : LState} (hy : margin ≤ st.y)
    (hr2 : margin + r ≤ pageHeight - margin) :
    (checkAndAddPage r st).y + r ≤ pageHeight - margin ∧
    margin ≤ (checkAndAddPage r st).y := by
  unfold checkAndAddPage
  split
  · exact ⟨hr2, le_refl _⟩
  · rename_i hcond
    exact ⟨not_lt.mp hcond, hy⟩

theorem bodyInv_emit {st : LState} (op : DrawOp) (h : BodyInv st)
    (hop : margin ≤ yOf op ∧ yOf op ≤ pageHeight - margin) :
    BodyInv (emit op st) := by
  obtain ⟨hdone, hcur, hy, hne⟩ := h
  refine ⟨hdone, ?_, hy, hne⟩
  intro o ho
  rcases List.mem_append.mp ho with h' | h'
  · exact hcur o h'
  · obtain rfl := List.mem_singleton.mp h'
    exact hop

theorem bodyInv_setY {st : LState} (y' : ℤ) (h : BodyInv st)
    (hy : margin ≤ y') : BodyInv { st with y := y' } := by
  obtain ⟨hdone, hcur, _, hne⟩ := h
  exact ⟨hdone, hcur, hy, hne⟩

/-- A `setY` step that only advances the cursor by a non-negative amount
keeps the invariant. -/
theorem bodyInv_setY_add {st : LState} (d : ℤ) (hd : 0 ≤ d)
    (h : BodyInv st) : BodyInv { st with y := st.y + d } :=
  bodyInv_setY _ h (by have := h.2.2.1; omega)

/-- One cursor-positioned line: page-break check for `req`, draw an
operation anchored at the cursor, advance by `adv`.  The drawn operation
lands inside the printable band. -/
theorem bodyInv_lineStep (req adv : ℤ) (hreq : 0 ≤ req)
    (hfit : margin + req ≤ pageHeight - margin) (hadv : 0 ≤ adv)
    (mk : ℤ → DrawOp) (hmk : ∀ y, yOf (mk y) = y) {st : LState}
    (h : BodyInv st) :
    BodyInv { emit (mk (checkAndAddPage req st).y) (checkAndAddPage req st)
      with y := (checkAndAddPage req st).y + adv } := by
  have hy := check_y_le req h.2.2.1 hfit
  have hc := bodyInv_check req h
  apply bodyInv_setY
  · apply bodyInv_emit _ hc
    rw [hmk]
    exact ⟨hy.2, by have := hy.1; omega⟩
  · have := hy.2
    omega

theorem bodyInv_tocStep {st : LState} (ir : Nat × SearchResult)
    (h : BodyInv st) : BodyInv (tocStep st ir) :=
  bodyInv_lineStep 10 7 (by decide) (by decide) (by decide)
    (fun y => DrawOp.link (toString (ir.1 + 1) ++ ". " ++ ir.2.title)
      (margin + 5) y (ir.1 + 3))
    (fun _ => rfl) h

/-- The tail of one section: the gap, the page-break check, the source
attribution line and the divider rule. -/
theorem bodyInv_tail (srcStr : String) {S : LState} (h : BodyInv S) :
    BodyInv (
      emit (DrawOp.line margin
          ((checkAndAddPage 10 { S with y := S.y + 10 }).y + 5)
          (pageWidth - margin)
          ((checkAndAddPage 10 { S with y := S.y + 10 }).y + 5))
        { emit (DrawOp.text srcStr margin
              (checkAndAddPage 10 { S with y := S.y + 10 }).y)
            (checkAndAddPage 10 { S with y := S.y + 10 })
          with y := (checkAndAddPage 10 { S with y := S.y + 10 }).y + 5 }) := by
  have hS10 : BodyInv { S with y := S.y + 10 } :=
    bodyInv_setY_add 10 (by decide) h
  have hy := check_y_le 10 hS10.2.2.1 (by decide)
  have hc := bodyInv_check 10 hS10
  apply bodyInv_emit
  case hop =>
    refine ⟨?_, ?_⟩
    · show margin ≤ (checkAndAddPage 10 { S with y := S.y + 10 }).y + 5
      have := hy.2
      omega
    · show (checkAndAddPage 10 { S with y := S.y + 10 }).y + 5
        ≤ pageHeight - margin
      have := hy.1
      omega
  apply bodyInv_setY
  · apply bodyInv_emit _ hc
    refine ⟨hy.2, ?_⟩
    show (checkAndAddPage 10 { S with y := S.y + 10 }).y ≤ pageHeight - margin
    have := hy.1
    omega
  · have := hy.2
    omega

theorem bodyInv_sectionStep (wrapF : String → ℤ → ℤ → List String)
    {st : LState} (ir : Nat × SearchResult) (h : BodyInv st) :
    BodyInv (sectionStep wrapF st ir) := by
  apply bodyInv_tail
  refine foldl_inv BodyInv _ ?_ _ _ ?_
  · intro s line hs
    exact bodyInv_lineStep 8 6 (by decide) (by decide) (by decide)
      (fun y => DrawOp.text line margin y) (fun _ => rfl) hs
  refine bodyInv_setY_add 5 (by decide) ?_
  refine foldl_inv BodyInv _ ?_ _ _ ?_
  · intro s line hs
    exact bodyInv_lineStep 12 10 (by decide) (by decide) (by decide)
      (fun y => DrawOp.text line margin y) (fun _ => rfl) hs
  refine bodyInv_setY_add 10 (by decide) ?_
  refine bodyInv_emit _ ?_
    ⟨le_refl _, by show (margin : ℤ) ≤ pageHeight - margin; decide⟩
  exact bodyInv_newPage h

/-! ### C8 — the cursor invariant -/

/-- C8: throughout a layout run the cursor stays at or below no content:
every draw operation recorded on a non-cover page (the pages governed by
`yPosition`) is anchored inside the printable band
`margin ≤ y ≤ pageHeight - margin` — a page-break check precedes every
variable-height line, so no line is placed below the printable area even
though the cursor itself may transiently pass it between a draw and the
next check — and the cursor never rises above the top margin. -/
theorem cursor_bounds (wrapF : String → ℤ → ℤ → List String)
    (widthF : String → ℤ) (topic dateStr : String)
    (results : List SearchResult) :
    (∀ p ∈ (pagesOf (contentState wrapF widthF topic dateStr results)).drop 1,
      ∀ op ∈ p, margin ≤ yOf op ∧ yOf op ≤ pageHeight - margin) ∧
    margin ≤ (contentState wrapF widthF topic dateStr results).y := by
  have hInv : BodyInv (contentState wrapF widthF topic dateStr results) := by
    refine foldl_inv BodyInv _ ?_ _ _ ?_
    · intro s ir hs
      exact bodyInv_sectionStep wrapF ir hs
    refine foldl_inv BodyInv _ ?_ _ _ ?_
    · intro s ir hs
      exact bodyInv_tocStep ir hs
    refine bodyInv_setY_add 15 (by decide) ?_
    refine bodyInv_emit _ ?_
      ⟨le_refl _, by show (margin : ℤ) ≤ pageHeight - margin; decide⟩
    refine ⟨?_, ?_, le_refl _, ?_⟩
    · intro p hp op hop
      simp at hp
    · intro op hop
      simp at hop
    · simp
  obtain ⟨hdone, hcur, hy, hne⟩ := hInv
  refine ⟨?_, hy⟩
  intro p hp op hop
  unfold pagesOf at hp
  rcases mem_drop_one_append hne _ hp with h' | rfl
  · exact hdone p h' op hop
  · exact hcur op hop

/-- C8 witness: the TOC header of the zero-block layout for topic "AI",
drawn at the top margin of page 2, lies inside the printable band. -/
theorem cursor_bounds_w :
    margin ≤ yOf (DrawOp.text "Table of Contents" margin margin) ∧
    yOf (DrawOp.text "Table of Contents" margin margin)
      ≤ pageHeight - margin :=
  (cursor_bounds wrapBars widthZero "AI" "D" []).1
    [DrawOp.text "Table of Contents" margin margin] (by decide)
    (DrawOp.text "Table of Contents" margin margin) (by decide)

/-! ### C1 — TOC link targets -/

set_option maxRecDepth 40000 in
/-- C1: the engine links TOC entry `i` to the fixed page `i + 3` instead of
resolving the page at which the section actually begins.  At the failing
input `longBlocks` — two blocks whose first body wraps onto 40 lines and
therefore spans two pages — the document has 5 pages (at least M + 2 = 4)
and exactly M = 2 TOC entries, but entry 2 links to page 4 while its
`SECTION 2` label is actually rendered on page 5.  (The page count and
entry count conjuncts of the claim hold; the link-resolution conjunct is
the code bug, exactly as flagged by the spec's design notes.) -/
theorem toc_link_divergence :
    (contentPages wrapBars widthZero "AI" "D" longBlocks).length = 5 ∧
    tocLinks (contentPages wrapBars widthZero "AI" "D" longBlocks) = [3, 4] ∧
    sectionStartPage (contentPages wrapBars widthZero "AI" "D" longBlocks) 0
      = some 3 ∧
    sectionStartPage (contentPages wrapBars widthZero "AI" "D" longBlocks) 1
      = some 5 := by
  refine ⟨?_, ?_, ?_, ?_⟩ <;> decide

end DeepSearchPDF
